import Mathlib

/-!
Shallow embedding of the login rate limiter of `src/lib/rate-limit.ts`
(repository Crvesoft/ldc-store) and proofs of the specified properties.

Times are milliseconds since epoch, modelled as `Nat`.  The persisted
`loginRateLimits` row for one identifier is `AttemptRecord`; the whole
table is `Store`, a map from identifier strings to optional records.
`checkRateLimit` is read-only; `recordFailedAttempt` returns the result
together with the row it persists; `clearRateLimit` deletes the row.
-/

namespace LdcStore

/-- CONFIG.WINDOW_MS: the 15-minute window, in milliseconds. -/
def WINDOW_MS : Nat := 15 * 60 * 1000

/-- CONFIG.MAX_ATTEMPTS: the maximum number of failed attempts per window. -/
def MAX_ATTEMPTS : Nat := 5

/-- CONFIG.BLOCK_DURATION_MS: the 30-minute block, in milliseconds. -/
def BLOCK_DURATION_MS : Nat := 30 * 60 * 1000

/-- `secondsUntil(targetMs, nowMs) = Math.max(0, Math.ceil((targetMs - nowMs) / 1000))`.
Truncated `Nat` subtraction supplies the clamp at 0, and `(d + 999) / 1000`
is the ceiling of `d / 1000` for natural `d`. -/
def secondsUntil (targetMs nowMs : Nat) : Nat :=
  (targetMs - nowMs + 999) / 1000

/-- One row of the `loginRateLimits` table. -/
structure AttemptRecord where
  count : Nat
  firstAttemptAt : Nat
  lastAttemptAt : Nat
  blockedUntil : Option Nat
deriving Repr, DecidableEq

/-- The `RateLimitResult` interface; `resetIn` is in seconds. -/
structure RateLimitResult where
  success : Bool
  remaining : Nat
  resetIn : Nat
  blocked : Bool
  message : Option String
deriving Repr, DecidableEq

/-- Message of the active-block branch: Math.ceil of `resetIn / 60` minutes. -/
def blockedMessage (resetIn : Nat) : String :=
  "登录尝试次数过多，请 " ++ Nat.repr ((resetIn + 59) / 60) ++ " 分钟后再试"

/-- Message of the block-triggering branch of `recordFailedAttempt`. -/
def lockMessage (resetIn : Nat) : String :=
  "登录尝试次数过多，账户已被临时锁定 " ++ Nat.repr ((resetIn + 59) / 60) ++ " 分钟"

/-- Message of the window-exhausted branch of `checkRateLimit`. -/
def tooManyMessage : String := "尝试次数过多，请稍后再试"

/-- Low-attempts warning attached when the remaining count drops to 2 or below. -/
def lowAttemptsMessage (remaining : Nat) : String :=
  "还剩 " ++ Nat.repr remaining ++ " 次尝试机会"

/-- The part of `checkRateLimit` after the block test fell through:
window-expiry test, then the remaining-count computation.
JS `remaining <= 0` becomes `MAX_ATTEMPTS - record.count ≤ 0` on `Nat`,
which holds exactly when the integer `MAX_ATTEMPTS - count` is `≤ 0`. -/
def checkWindow (record : AttemptRecord) (nowMs : Nat) : RateLimitResult :=
  let windowEndsMs := record.firstAttemptAt + WINDOW_MS
  if windowEndsMs < nowMs then
    ⟨true, MAX_ATTEMPTS, secondsUntil (nowMs + WINDOW_MS) nowMs, false, none⟩
  else
    let remaining := MAX_ATTEMPTS - record.count
    if remaining ≤ 0 then
      ⟨false, 0, secondsUntil windowEndsMs nowMs, false, some tooManyMessage⟩
    else
      ⟨true, remaining, secondsUntil windowEndsMs nowMs, false, none⟩

/-- `checkRateLimit(identifier)`, applied to the record found for the
identifier (`none` when no row exists) and the current time. -/
def checkRateLimit (record : Option AttemptRecord) (nowMs : Nat) : RateLimitResult :=
  match record with
  | none =>
    ⟨true, MAX_ATTEMPTS, secondsUntil (nowMs + WINDOW_MS) nowMs, false, none⟩
  | some record =>
    match record.blockedUntil with
    | some blockedUntilMs =>
      if nowMs < blockedUntilMs then
        let resetIn := secondsUntil blockedUntilMs nowMs
        ⟨false, 0, resetIn, true, some (blockedMessage resetIn)⟩
      else
        checkWindow record nowMs
    | none => checkWindow record nowMs

/-- The part of `recordFailedAttempt` after the block test fell through:
reset on window expiry, otherwise increment, triggering a block at
`MAX_ATTEMPTS`.  Returns the result and the persisted row. -/
def recordFailedWindow (record : AttemptRecord) (nowMs : Nat) :
    RateLimitResult × AttemptRecord :=
  let windowEndsMs := record.firstAttemptAt + WINDOW_MS
  if windowEndsMs < nowMs then
    (⟨true, MAX_ATTEMPTS - 1, secondsUntil (nowMs + WINDOW_MS) nowMs, false, none⟩,
     ⟨1, nowMs, nowMs, none⟩)
  else
    let newCount := record.count + 1
    if MAX_ATTEMPTS ≤ newCount then
      let blockedUntilMs := nowMs + BLOCK_DURATION_MS
      let resetIn := secondsUntil blockedUntilMs nowMs
      (⟨false, 0, resetIn, true, some (lockMessage resetIn)⟩,
       ⟨newCount, record.firstAttemptAt, nowMs, some blockedUntilMs⟩)
    else
      let remaining := MAX_ATTEMPTS - newCount
      (⟨true, remaining, secondsUntil windowEndsMs nowMs, false,
        if remaining ≤ 2 then some (lowAttemptsMessage remaining) else none⟩,
       ⟨newCount, record.firstAttemptAt, nowMs, record.blockedUntil⟩)

/-- `recordFailedAttempt(identifier)`, applied to the row selected for
update (`none` when no row exists) and the current time.  Returns the
result together with the row persisted for the identifier (the unchanged
row in the still-blocked branch). -/
def recordFailedAttempt (record : Option AttemptRecord) (nowMs : Nat) :
    RateLimitResult × AttemptRecord :=
  match record with
  | none =>
    (⟨true, MAX_ATTEMPTS - 1, secondsUntil (nowMs + WINDOW_MS) nowMs, false, none⟩,
     ⟨1, nowMs, nowMs, none⟩)
  | some record =>
    match record.blockedUntil with
    | some blockedUntilMs =>
      if nowMs < blockedUntilMs then
        let resetIn := secondsUntil blockedUntilMs nowMs
        (⟨false, 0, resetIn, true, some (blockedMessage resetIn)⟩, record)
      else
        recordFailedWindow record nowMs
    | none => recordFailedWindow record nowMs

/-- `clearRateLimit(identifier)`: the row is deleted. -/
def clearRateLimit (record : Option AttemptRecord) : Option AttemptRecord :=
  none

/-- The request headers consulted by `getClientIP`; `none` models an
absent header. -/
structure Headers where
  cfConnectingIP : Option String
  xForwardedFor : Option String
  xRealIP : Option String

/-- JS truthiness of `headers.get(...)`: present and non-empty. -/
def headerTruthy : Option String → Bool
  | none => false
  | some s => !(s == "")

/-- Characters of a string before its first comma: `split(",")[0]`. -/
def takeUntilComma : List Char → List Char
  | [] => []
  | c :: cs => if c = ',' then [] else c :: takeUntilComma cs

/-- `split(",")[0]` on strings. -/
def firstCommaSegment (s : String) : String :=
  ⟨takeUntilComma s.data⟩

/-- Drop leading whitespace characters. -/
def dropLeadingWS : List Char → List Char
  | [] => []
  | c :: cs => if c.isWhitespace then dropLeadingWS cs else c :: cs

/-- JS `String.prototype.trim` (over the ASCII whitespace the claims use). -/
def jsTrim (s : String) : String :=
  ⟨(dropLeadingWS (dropLeadingWS s.data.reverse).reverse)⟩

/-- `getClientIP(headers)`: cf-connecting-ip, else the first comma-separated
entry of x-forwarded-for trimmed, else x-real-ip, else "unknown".  Each
header is consulted with JS truthiness (an empty string falls through at
the first and third guards but not inside the forwarded-for branch). -/
def getClientIP (headers : Headers) : String :=
  if headerTruthy headers.cfConnectingIP then headers.cfConnectingIP.getD ""
  else if headerTruthy headers.xForwardedFor then
    jsTrim (firstCommaSegment (headers.xForwardedFor.getD ""))
  else if headerTruthy headers.xRealIP then headers.xRealIP.getD ""
  else "unknown"

/-- The operations a caller can perform for one identifier. -/
inductive Op where
  | probe
  | fail
  | clear
deriving Repr, DecidableEq

/-- Effect of one operation on the identifier's row: `checkRateLimit` is
read-only, `recordFailedAttempt` persists its returned row, and
`clearRateLimit` deletes the row. -/
def applyOp (record : Option AttemptRecord) : Op → Nat → Option AttemptRecord
  | .probe, _ => record
  | .fail, nowMs => some (recordFailedAttempt record nowMs).2
  | .clear, _ => clearRateLimit record

/-- The `loginRateLimits` table: at most one row per identifier. -/
def Store := String → Option AttemptRecord

/-- The table with no rows. -/
def emptyStore : Store := fun _ => none

/-- One call against the table touches only the caller's identifier. -/
def applyStoreOp (s : Store) (id : String) (op : Op) (nowMs : Nat) : Store :=
  fun i => if i = id then applyOp (s id) op nowMs else s i

/-- Run a list of calls, each an identifier, an operation and its time. -/
def runTrace : Store → List (String × Op × Nat) → Store
  | s, [] => s
  | s, (id, op, t) :: tr => runTrace (applyStoreOp s id op t) tr

/-- The call times of a trace are nondecreasing from the given lower bound
(`Date.now()` is monotone across successive calls). -/
def timesMono : Nat → List (String × Op × Nat) → Bool
  | _, [] => true
  | t, (_, _, t2) :: tr => decide (t ≤ t2) && timesMono t2 tr

/-- Run `recordFailedAttempt` for one identifier at each listed time,
collecting the results and the final row. -/
def failRun (record : Option AttemptRecord) :
    List Nat → List RateLimitResult × Option AttemptRecord
  | [] => ([], record)
  | t :: ts =>
    let step := recordFailedAttempt record t
    let rest := failRun (some step.2) ts
    (step.1 :: rest.1, rest.2)

/-- Invariant of every persisted row, relative to the time `t` of the call
that most recently wrote the table: the count stays in `[1, MAX_ATTEMPTS]`
and only blocked rows carry the maximal count; a block always ends after
the row's window does, because `BLOCK_DURATION_MS > WINDOW_MS` and the
block was created no earlier than `firstAttemptAt`. -/
def RecordInv (r : AttemptRecord) (t : Nat) : Prop :=
  1 ≤ r.count ∧ r.count ≤ MAX_ATTEMPTS ∧ r.firstAttemptAt ≤ t ∧
    (∀ b, r.blockedUntil = some b → r.firstAttemptAt + WINDOW_MS < b) ∧
    (r.blockedUntil = none → r.count < MAX_ATTEMPTS)

/-- Every row of the table satisfies `RecordInv` at time `t`. -/
def StoreInv (s : Store) (t : Nat) : Prop :=
  ∀ id r, s id = some r → RecordInv r t

theorem RecordInv.mono {r : AttemptRecord} {t t2 : Nat}
    (h : RecordInv r t) (ht : t ≤ t2) : RecordInv r t2 :=
  ⟨h.1, h.2.1, le_trans h.2.2.1 ht, h.2.2.2.1, h.2.2.2.2⟩

theorem recordFailedAttempt_inv (record : Option AttemptRecord) (t nowMs : Nat)
    (hr : ∀ rec, record = some rec → RecordInv rec t) (ht : t ≤ nowMs) :
    RecordInv (recordFailedAttempt record nowMs).2 nowMs := by
  match record with
  | none =>
    simp only [recordFailedAttempt]
    refine ⟨le_refl 1, by simp [MAX_ATTEMPTS], le_refl nowMs, by simp, ?_⟩
    intro
    simp [MAX_ATTEMPTS]
  | some rec =>
    have hinv := hr rec rfl
    obtain ⟨h1, h2, h3, h4, h5⟩ := hinv
    have h2n : rec.count ≤ 5 := h2
    have hfirst : rec.firstAttemptAt ≤ nowMs := le_trans h3 ht
    simp only [recordFailedAttempt]
    match hb : rec.blockedUntil with
    | some blockedUntilMs =>
      by_cases hnb : nowMs < blockedUntilMs
      · simp only [hnb, if_pos]
        exact ⟨h1, h2, hfirst, h4, h5⟩
      · -- the block has expired, hence the window has too: reset branch
        have hbw : rec.firstAttemptAt + 900000 < blockedUntilMs := h4 _ hb
        have hexp : rec.firstAttemptAt + WINDOW_MS < nowMs := by
          show rec.firstAttemptAt + 900000 < nowMs
          omega
        simp only [hnb, if_neg, not_false_iff, recordFailedWindow, hexp, if_pos]
        refine ⟨le_refl 1, ?_, le_refl nowMs, by simp, fun _ => ?_⟩ <;>
          dsimp only [MAX_ATTEMPTS] <;> omega
    | none =>
      have hc : rec.count < 5 := h5 hb
      simp only [recordFailedWindow]
      by_cases hexp : rec.firstAttemptAt + WINDOW_MS < nowMs
      · simp only [hexp, if_pos]
        refine ⟨le_refl 1, ?_, le_refl nowMs, by simp, fun _ => ?_⟩ <;>
          dsimp only [MAX_ATTEMPTS] <;> omega
      · have hwin : ¬ rec.firstAttemptAt + 900000 < nowMs := hexp
        by_cases htr : MAX_ATTEMPTS ≤ rec.count + 1
        · simp only [hexp, if_neg, not_false_iff, htr, if_pos]
          refine ⟨?_, ?_, hfirst, fun b hbb => ?_, by simp⟩ <;>
            dsimp only [MAX_ATTEMPTS, WINDOW_MS, BLOCK_DURATION_MS] at *
          · omega
          · omega
          · simp only [Option.some.injEq] at hbb
            omega
        · have htr5 : ¬ 5 ≤ rec.count + 1 := htr
          simp only [hexp, if_neg, not_false_iff, htr, hb]
          refine ⟨?_, ?_, hfirst, by simp, fun _ => ?_⟩ <;>
            dsimp only [MAX_ATTEMPTS] <;> omega

theorem applyStoreOp_inv {s : Store} {t : Nat} (hs : StoreInv s t)
    (id : String) (op : Op) {nowMs : Nat} (ht : t ≤ nowMs) :
    StoreInv (applyStoreOp s id op nowMs) nowMs := by
  intro i r hi
  simp only [applyStoreOp] at hi
  by_cases hid : i = id
  · simp only [hid, if_pos] at hi
    match op with
    | .probe => exact (hs id r hi).mono ht
    | .fail =>
      have := recordFailedAttempt_inv (s id) t nowMs (fun rec h => hs id rec h) ht
      simp only [applyOp, Option.some.injEq] at hi
      exact hi ▸ this
    | .clear => simp [applyOp, clearRateLimit] at hi
  · simp only [hid, if_neg, not_false_iff] at hi
    exact (hs i r hi).mono ht

theorem runTrace_inv (tr : List (String × Op × Nat)) (s : Store) (t : Nat)
    (hs : StoreInv s t) (hm : timesMono t tr = true) :
    ∃ t2, StoreInv (runTrace s tr) t2 := by
  induction tr generalizing s t with
  | nil => exact ⟨t, hs⟩
  | cons hd tl ih =>
    obtain ⟨id, op, t2⟩ := hd
    simp only [timesMono, Bool.and_eq_true, decide_eq_true_eq] at hm
    exact ih (applyStoreOp s id op t2) t2 (applyStoreOp_inv hs id op hm.1) hm.2

theorem secondsUntil_add (nowMs d : Nat) :
    secondsUntil (nowMs + d) nowMs = (d + 999) / 1000 := by
  simp only [secondsUntil, Nat.add_sub_cancel_left]

/-- A first failure inserts a fresh row and allows with 4 attempts left. -/
theorem recordFailedAttempt_none (nowMs : Nat) :
    recordFailedAttempt none nowMs =
      (⟨true, 4, 900, false, none⟩, ⟨1, nowMs, nowMs, none⟩) := by
  simp only [recordFailedAttempt, WINDOW_MS, secondsUntil_add, MAX_ATTEMPTS]

/-- A failure inside the window, unblocked and below the threshold,
increments the count and allows. -/
theorem recordFailedAttempt_increment (rec : AttemptRecord) (nowMs : Nat)
    (hb : rec.blockedUntil = none) (hw : nowMs ≤ rec.firstAttemptAt + WINDOW_MS)
    (hc : rec.count + 1 < MAX_ATTEMPTS) :
    recordFailedAttempt (some rec) nowMs =
      (⟨true, MAX_ATTEMPTS - (rec.count + 1),
        secondsUntil (rec.firstAttemptAt + WINDOW_MS) nowMs, false,
        if MAX_ATTEMPTS - (rec.count + 1) ≤ 2 then
          some (lowAttemptsMessage (MAX_ATTEMPTS - (rec.count + 1))) else none⟩,
       ⟨rec.count + 1, rec.firstAttemptAt, nowMs, none⟩) := by
  have hexp : ¬ rec.firstAttemptAt + WINDOW_MS < nowMs := not_lt.mpr hw
  have htr : ¬ MAX_ATTEMPTS ≤ rec.count + 1 := not_le.mpr hc
  simp only [recordFailedAttempt, hb, recordFailedWindow, hexp, if_neg,
    not_false_iff, htr]

/-- A failure inside the window with no active block, reaching the
threshold, persists a block until `nowMs + BLOCK_DURATION_MS` and denies
with `resetIn = 1800` seconds. -/
theorem recordFailedAttempt_block (rec : AttemptRecord) (nowMs : Nat)
    (hb : rec.blockedUntil = none ∨ ∃ b, rec.blockedUntil = some b ∧ b ≤ nowMs)
    (hw : nowMs ≤ rec.firstAttemptAt + WINDOW_MS)
    (hc : MAX_ATTEMPTS ≤ rec.count + 1) :
    recordFailedAttempt (some rec) nowMs =
      (⟨false, 0, 1800, true, some (lockMessage 1800)⟩,
       ⟨rec.count + 1, rec.firstAttemptAt, nowMs, some (nowMs + BLOCK_DURATION_MS)⟩) := by
  have hexp : ¬ rec.firstAttemptAt + WINDOW_MS < nowMs := not_lt.mpr hw
  have hstep : recordFailedWindow rec nowMs =
      (⟨false, 0, 1800, true, some (lockMessage 1800)⟩,
       ⟨rec.count + 1, rec.firstAttemptAt, nowMs, some (nowMs + BLOCK_DURATION_MS)⟩) := by
    simp only [recordFailedWindow, hexp, if_neg, not_false_iff, hc, if_pos,
      BLOCK_DURATION_MS, secondsUntil_add]
  rcases hb with hb | ⟨b, hb, hble⟩
  · simp only [recordFailedAttempt, hb, hstep]
  · have hnb : ¬ nowMs < b := not_lt.mpr hble
    simp only [recordFailedAttempt, hb, hnb, if_neg, not_false_iff, hstep]

/-- The full run of five failures on a fresh identifier, all inside one
window: the first four allow with remaining 4, 3, 2, 1 (warnings on the
last two), the fifth blocks for 1800 seconds. -/
theorem fiveFailRun (t1 t2 t3 t4 t5 : Nat) (h12 : t1 ≤ t2) (h23 : t2 ≤ t3)
    (h34 : t3 ≤ t4) (h45 : t4 ≤ t5) (hw : t5 ≤ t1 + WINDOW_MS) :
    failRun none [t1, t2, t3, t4, t5] =
      ([⟨true, 4, 900, false, none⟩,
        ⟨true, 3, secondsUntil (t1 + WINDOW_MS) t2, false, none⟩,
        ⟨true, 2, secondsUntil (t1 + WINDOW_MS) t3, false,
          some (lowAttemptsMessage 2)⟩,
        ⟨true, 1, secondsUntil (t1 + WINDOW_MS) t4, false,
          some (lowAttemptsMessage 1)⟩,
        ⟨false, 0, 1800, true, some (lockMessage 1800)⟩],
       some ⟨5, t1, t5, some (t5 + BLOCK_DURATION_MS)⟩) := by
  have hwn : t5 ≤ t1 + 900000 := hw
  have s1 := recordFailedAttempt_none t1
  have s2 := recordFailedAttempt_increment ⟨1, t1, t1, none⟩ t2 rfl
    (by show t2 ≤ t1 + 900000; omega) (by dsimp only [MAX_ATTEMPTS]; omega)
  have s3 := recordFailedAttempt_increment ⟨2, t1, t2, none⟩ t3 rfl
    (by show t3 ≤ t1 + 900000; omega) (by dsimp only [MAX_ATTEMPTS]; omega)
  have s4 := recordFailedAttempt_increment ⟨3, t1, t3, none⟩ t4 rfl
    (by show t4 ≤ t1 + 900000; omega) (by dsimp only [MAX_ATTEMPTS]; omega)
  have s5 := recordFailedAttempt_block ⟨4, t1, t4, none⟩ t5 (Or.inl rfl)
    (by show t5 ≤ t1 + 900000; omega) (by dsimp only [MAX_ATTEMPTS]; omega)
  simp only [failRun, s1, s2, s3, s4, s5, MAX_ATTEMPTS]
  norm_num

/-- C1: for a record with an active window and no active block, the
`recordFailedAttempt` call that makes the count reach `MAX_ATTEMPTS`
returns `success = false`, `blocked = true` and persists
`blockedUntil = nowMs + BLOCK_DURATION_MS`; and `MAX_ATTEMPTS` consecutive
failures within one window on a fresh identifier yield `blocked = true`
exactly on the final call. -/
theorem recordFailure_blocks_at_max_attempts :
    (∀ (rec : AttemptRecord) (nowMs : Nat),
      (rec.blockedUntil = none ∨ ∃ b, rec.blockedUntil = some b ∧ b ≤ nowMs) →
      nowMs ≤ rec.firstAttemptAt + WINDOW_MS →
      rec.count + 1 = MAX_ATTEMPTS →
      (recordFailedAttempt (some rec) nowMs).1.success = false ∧
      (recordFailedAttempt (some rec) nowMs).1.blocked = true ∧
      (recordFailedAttempt (some rec) nowMs).2.blockedUntil =
        some (nowMs + BLOCK_DURATION_MS)) ∧
    (∀ t1 t2 t3 t4 t5 : Nat, t1 ≤ t2 → t2 ≤ t3 → t3 ≤ t4 → t4 ≤ t5 →
      t5 ≤ t1 + WINDOW_MS →
      (failRun none [t1, t2, t3, t4, t5]).1.map RateLimitResult.blocked =
        [false, false, false, false, true]) := by
  constructor
  · intro rec nowMs hb hw hc
    rw [recordFailedAttempt_block rec nowMs hb hw (le_of_eq hc.symm)]
    exact ⟨rfl, rfl, rfl⟩
  · intro t1 t2 t3 t4 t5 h12 h23 h34 h45 hw
    rw [fiveFailRun t1 t2 t3 t4 t5 h12 h23 h34 h45 hw]
    rfl

theorem recordFailure_blocks_at_max_attempts_witness :
    ((recordFailedAttempt (some ⟨4, 10, 10, none⟩) 20).1.success = false ∧
     (recordFailedAttempt (some ⟨4, 10, 10, none⟩) 20).1.blocked = true ∧
     (recordFailedAttempt (some ⟨4, 10, 10, none⟩) 20).2.blockedUntil =
       some (20 + BLOCK_DURATION_MS)) ∧
    (failRun none [0, 1, 2, 3, 4]).1.map RateLimitResult.blocked =
      [false, false, false, false, true] :=
  ⟨recordFailure_blocks_at_max_attempts.1 ⟨4, 10, 10, none⟩ 20 (Or.inl rfl)
      (by decide) (by decide),
   recordFailure_blocks_at_max_attempts.2 0 1 2 3 4 (by decide) (by decide)
      (by decide) (by decide) (by decide)⟩

/-- C2: while a record's `blockedUntil` lies strictly in the future, both
`checkRateLimit` and `recordFailedAttempt` deny with `blocked = true`,
`remaining = 0` and `resetIn = secondsUntil blockedUntil nowMs` (the
seconds until the block ends, rounded up), and `recordFailedAttempt`
persists the record unchanged. -/
theorem blocked_deny_and_freeze (rec : AttemptRecord) (b nowMs : Nat)
    (hb : rec.blockedUntil = some b) (hfut : nowMs < b) :
    checkRateLimit (some rec) nowMs =
      ⟨false, 0, secondsUntil b nowMs, true,
        some (blockedMessage (secondsUntil b nowMs))⟩ ∧
    (recordFailedAttempt (some rec) nowMs).1 =
      ⟨false, 0, secondsUntil b nowMs, true,
        some (blockedMessage (secondsUntil b nowMs))⟩ ∧
    (recordFailedAttempt (some rec) nowMs).2 = rec := by
  refine ⟨?_, ?_, ?_⟩ <;> simp [checkRateLimit, recordFailedAttempt, hb, hfut]

theorem blocked_deny_and_freeze_witness :
    checkRateLimit (some ⟨5, 0, 0, some 5000⟩) 0 =
      ⟨false, 0, secondsUntil 5000 0, true,
        some (blockedMessage (secondsUntil 5000 0))⟩ ∧
    (recordFailedAttempt (some ⟨5, 0, 0, some 5000⟩) 0).1 =
      ⟨false, 0, secondsUntil 5000 0, true,
        some (blockedMessage (secondsUntil 5000 0))⟩ ∧
    (recordFailedAttempt (some ⟨5, 0, 0, some 5000⟩) 0).2 =
      (⟨5, 0, 0, some 5000⟩ : AttemptRecord) :=
  blocked_deny_and_freeze ⟨5, 0, 0, some 5000⟩ 5000 0 rfl (by decide)

/-- C3: once a record's block has expired (`blockedUntil = some b` with
`b ≤ nowMs`), the next `recordFailedAttempt` resets the row to a fresh
window and allows with `MAX_ATTEMPTS - 1` remaining.  The hypothesis
`firstAttemptAt + WINDOW_MS < b` holds of every blocked row the code
creates (a block outlives the window because
`BLOCK_DURATION_MS > WINDOW_MS`); it makes an expired block imply an
expired window, which is the test the reset branch performs. -/
theorem expired_block_next_failure_resets (rec : AttemptRecord) (b nowMs : Nat)
    (hb : rec.blockedUntil = some b) (hexp : b ≤ nowMs)
    (hinv : rec.firstAttemptAt + WINDOW_MS < b) :
    recordFailedAttempt (some rec) nowMs =
      (⟨true, MAX_ATTEMPTS - 1, 900, false, none⟩, ⟨1, nowMs, nowMs, none⟩) := by
  have hnb : ¬ nowMs < b := not_lt.mpr hexp
  have hwexp : rec.firstAttemptAt + WINDOW_MS < nowMs := lt_of_lt_of_le hinv hexp
  have h900 : (WINDOW_MS + 999) / 1000 = 900 := by decide
  simp only [recordFailedAttempt, hb, hnb, if_neg, not_false_iff,
    recordFailedWindow, hwexp, if_pos, secondsUntil_add, h900]

theorem expired_block_next_failure_resets_witness :
    recordFailedAttempt (some ⟨5, 0, 40, some 1800040⟩) 1800040 =
      (⟨true, MAX_ATTEMPTS - 1, 900, false, none⟩,
       ⟨1, 1800040, 1800040, none⟩) :=
  expired_block_next_failure_resets ⟨5, 0, 40, some 1800040⟩ 1800040 1800040 rfl
    (by decide) (by decide)

/-- C4: in every state reachable from the empty table by calls with
nondecreasing times, every persisted row has its count in
`[1, MAX_ATTEMPTS]`. -/
theorem reachable_count_in_range (tr : List (String × Op × Nat))
    (hm : timesMono 0 tr = true) (id : String) (r : AttemptRecord)
    (hr : runTrace emptyStore tr id = some r) :
    1 ≤ r.count ∧ r.count ≤ MAX_ATTEMPTS := by
  obtain ⟨t2, hinv⟩ :=
    runTrace_inv tr emptyStore 0 (fun i rec h => by simp [emptyStore] at h) hm
  exact ⟨(hinv id r hr).1, (hinv id r hr).2.1⟩

theorem reachable_count_in_range_witness :
    1 ≤ (⟨2, 3, 7, none⟩ : AttemptRecord).count ∧
    (⟨2, 3, 7, none⟩ : AttemptRecord).count ≤ MAX_ATTEMPTS :=
  reachable_count_in_range [("a", Op.fail, 3), ("a", Op.fail, 7)] (by decide)
    "a" ⟨2, 3, 7, none⟩ (by decide)

/-- C5: for an identifier with no row, `checkRateLimit` allows with
`remaining = MAX_ATTEMPTS`, `blocked = false` and `resetIn` equal to
`WINDOW_MS` in whole seconds; and a check call never mutates the row. -/
theorem check_fresh_identifier (nowMs : Nat) (record : Option AttemptRecord) :
    checkRateLimit none nowMs =
      ⟨true, MAX_ATTEMPTS, WINDOW_MS / 1000, false, none⟩ ∧
    applyOp record Op.probe nowMs = record := by
  exact ⟨by simp [checkRateLimit, WINDOW_MS, secondsUntil_add, MAX_ATTEMPTS], rfl⟩

/-- C6: for a record with no active block and an unexpired window,
`checkRateLimit` denies with `blocked = false` (window exhausted, not a
block) when the count has reached `MAX_ATTEMPTS`, and otherwise allows
with `remaining = MAX_ATTEMPTS - count`; in both cases `resetIn` counts
the seconds until the window ends. -/
theorem check_active_window_remaining (rec : AttemptRecord) (nowMs : Nat)
    (hb : ∀ b, rec.blockedUntil = some b → b ≤ nowMs)
    (hw : nowMs ≤ rec.firstAttemptAt + WINDOW_MS) :
    (MAX_ATTEMPTS ≤ rec.count →
      checkRateLimit (some rec) nowMs =
        ⟨false, 0, secondsUntil (rec.firstAttemptAt + WINDOW_MS) nowMs, false,
          some tooManyMessage⟩) ∧
    (rec.count < MAX_ATTEMPTS →
      checkRateLimit (some rec) nowMs =
        ⟨true, MAX_ATTEMPTS - rec.count,
          secondsUntil (rec.firstAttemptAt + WINDOW_MS) nowMs, false, none⟩) := by
  have hwstep : checkRateLimit (some rec) nowMs = checkWindow rec nowMs := by
    match hbv : rec.blockedUntil with
    | none => simp [checkRateLimit, hbv]
    | some b =>
      have : ¬ nowMs < b := not_lt.mpr (hb b hbv)
      simp [checkRateLimit, hbv, this]
  have hexp : ¬ rec.firstAttemptAt + WINDOW_MS < nowMs := not_lt.mpr hw
  constructor
  · intro hc
    have hz : MAX_ATTEMPTS - rec.count ≤ 0 := by omega
    rw [hwstep]
    simp only [checkWindow, hexp, if_neg, not_false_iff, hz, if_pos]
  · intro hc
    have hz : ¬ MAX_ATTEMPTS - rec.count ≤ 0 := by
      have : rec.count < 5 := hc
      dsimp only [MAX_ATTEMPTS]
      omega
    rw [hwstep]
    simp only [checkWindow, hexp, if_neg, not_false_iff, hz]

theorem check_active_window_remaining_witness :
    (checkRateLimit (some ⟨5, 0, 40, none⟩) 50 =
      ⟨false, 0, secondsUntil ((0 : Nat) + WINDOW_MS) 50, false,
        some tooManyMessage⟩) ∧
    (checkRateLimit (some ⟨2, 0, 40, none⟩) 50 =
      ⟨true, MAX_ATTEMPTS - 2, secondsUntil ((0 : Nat) + WINDOW_MS) 50, false,
        none⟩) :=
  ⟨(check_active_window_remaining ⟨5, 0, 40, none⟩ 50
      (fun b h => by cases h) (by decide)).1 (by decide),
   (check_active_window_remaining ⟨2, 0, 40, none⟩ 50
      (fun b h => by cases h) (by decide)).2 (by decide)⟩

/-- C7: five failures on a fresh identifier inside one window return
`success = true` with remaining 4, 3, 2, 1 on the first four — the
low-attempts warning naming the remaining count appearing exactly on the
third and fourth — and the fifth denies with `blocked = true` and
`resetIn = 1800` seconds. -/
theorem five_failure_scenario (t1 t2 t3 t4 t5 : Nat) (h12 : t1 ≤ t2)
    (h23 : t2 ≤ t3) (h34 : t3 ≤ t4) (h45 : t4 ≤ t5)
    (hw : t5 ≤ t1 + WINDOW_MS) :
    ((failRun none [t1, t2, t3, t4, t5]).1.map fun r =>
        (r.success, r.remaining, r.blocked, r.message)) =
      [(true, 4, false, none), (true, 3, false, none),
       (true, 2, false, some (lowAttemptsMessage 2)),
       (true, 1, false, some (lowAttemptsMessage 1)),
       (false, 0, true, some (lockMessage 1800))] ∧
    lowAttemptsMessage 2 = "还剩 2 次尝试机会" ∧
    lowAttemptsMessage 1 = "还剩 1 次尝试机会" ∧
    ((failRun none [t1, t2, t3, t4, t5]).1.map RateLimitResult.resetIn).getLast?
      = some 1800 := by
  rw [fiveFailRun t1 t2 t3 t4 t5 h12 h23 h34 h45 hw]
  exact ⟨rfl, rfl, rfl, rfl⟩

theorem five_failure_scenario_witness :
    ((failRun none [0, 1, 2, 3, 4]).1.map fun r =>
        (r.success, r.remaining, r.blocked, r.message)) =
      [(true, 4, false, none), (true, 3, false, none),
       (true, 2, false, some (lowAttemptsMessage 2)),
       (true, 1, false, some (lowAttemptsMessage 1)),
       (false, 0, true, some (lockMessage 1800))] ∧
    lowAttemptsMessage 2 = "还剩 2 次尝试机会" ∧
    lowAttemptsMessage 1 = "还剩 1 次尝试机会" ∧
    ((failRun none [0, 1, 2, 3, 4]).1.map RateLimitResult.resetIn).getLast?
      = some 1800 :=
  five_failure_scenario 0 1 2 3 4 (by decide) (by decide) (by decide)
    (by decide) (by decide)

/-- C8: `clearRateLimit` deletes the row (for any prior contents), is
idempotent and a no-op on a missing row, touches no other identifier of
the table, and a subsequent `checkRateLimit` behaves exactly as for an
identifier that never had a row. -/
theorem clear_deletes_record (s : Store) (id i : String) (t nowMs : Nat)
    (record : Option AttemptRecord) :
    clearRateLimit record = none ∧
    clearRateLimit (clearRateLimit record) = clearRateLimit record ∧
    applyStoreOp s id Op.clear t i = (if i = id then none else s i) ∧
    checkRateLimit (clearRateLimit record) nowMs = checkRateLimit none nowMs := by
  refine ⟨rfl, rfl, ?_, rfl⟩
  by_cases h : i = id <;> simp [applyStoreOp, applyOp, clearRateLimit, h]

/-- C9: `getClientIP` returns the cf-connecting-ip header when populated;
otherwise the first comma-separated entry of x-forwarded-for, trimmed,
when that header is populated; otherwise x-real-ip when populated;
otherwise the literal "unknown".  Populated means present and non-empty
(JS truthiness); the first populated header wins regardless of the later
ones. -/
theorem getClientIP_precedence (h : Headers) :
    (headerTruthy h.cfConnectingIP = true →
      getClientIP h = h.cfConnectingIP.getD "") ∧
    (headerTruthy h.cfConnectingIP = false →
      headerTruthy h.xForwardedFor = true →
      getClientIP h = jsTrim (firstCommaSegment (h.xForwardedFor.getD ""))) ∧
    (headerTruthy h.cfConnectingIP = false →
      headerTruthy h.xForwardedFor = false →
      headerTruthy h.xRealIP = true → getClientIP h = h.xRealIP.getD "") ∧
    (headerTruthy h.cfConnectingIP = false →
      headerTruthy h.xForwardedFor = false →
      headerTruthy h.xRealIP = false → getClientIP h = "unknown") := by
  refine ⟨fun h1 => ?_, fun h1 h2 => ?_, fun h1 h2 h3 => ?_,
    fun h1 h2 h3 => ?_⟩ <;> simp [getClientIP, *]

theorem getClientIP_precedence_witness :
    getClientIP ⟨some "1.2.3.4", some "5.6.7.8, 9.9.9.9", some "8.8.8.8"⟩ =
      (some "1.2.3.4").getD "" :=
  (getClientIP_precedence
    ⟨some "1.2.3.4", some "5.6.7.8, 9.9.9.9", some "8.8.8.8"⟩).1 (by decide)

/-- C10: with cf-connecting-ip absent and an x-forwarded-for value whose
first comma-separated entry trims to the empty string, `getClientIP`
returns the empty string — not the "unknown" sentinel — and never
consults x-real-ip (the result is the same for every value of it). -/
theorem getClientIP_empty_forwarded_entry (xRealIP : Option String) :
    getClientIP ⟨none, some ", 5.6.7.8", xRealIP⟩ = "" ∧
    getClientIP ⟨none, some ", 5.6.7.8", xRealIP⟩ ≠ "unknown" := by
  have h1 : getClientIP ⟨none, some ", 5.6.7.8", xRealIP⟩ = "" := rfl
  refine ⟨h1, ?_⟩
  rw [h1]
  decide

end LdcStore
